import Mathlib

/-!
Shallow embedding of the `nebula-carina` repository's configuration module
(`nebula_carina/settings.py`) and, where the repository ships only tests for a
module, spec-modelled definitions of the data-type serialization layer and the
schema-name derivation, together with theorems settling the specification
claims about them.
-/

namespace NebulaCarina

/-- Embedding of Python type expressions as they appear in the annotations of
`settings.py`: base types `int`, `str`, `Set[str]`, `NoneType`, and `Union`
applied to a tuple of argument types (`Optional[X]` is `Union[X, NoneType]`). -/
inductive PyType : Type
  | int : PyType
  | str : PyType
  | setStr : PyType
  | noneType : PyType
  | union : List PyType → PyType

/-- Python runtime values that can appear as settings values: integers,
strings, string sets, `None`, and booleans. -/
inductive Value : Type
  | int : Int → Value
  | str : String → Value
  | strSet : List String → Value
  | none : Value
  | bool : Bool → Value
deriving DecidableEq

/-- `type(None) == tp` test used by the membership check in `is_optional`. -/
def isNoneType : PyType → Bool
  | .noneType => true
  | _ => false

/-- Embedding of `DjangoCarinaDatabaseSettings.is_optional`:
`typing.get_origin(tp) is Union and type(None) in typing.get_args(tp)`.
Only a `Union[...]` expression has origin `Union`; the membership test over
`get_args` is equality with `NoneType` over the argument tuple. -/
def is_optional : PyType → Bool
  | .union args => args.any isNoneType
  | _ => false

/-- The `__annotations__` of `DjangoCarinaDatabaseSettings`, in declaration
order (`settings.py` lines 11-19). -/
def djangoAnnotations : List (String × PyType) :=
  [("max_connection_pool_size", .int),
   ("servers", .setStr),
   ("user_name", .str),
   ("password", .str),
   ("default_space", .str),
   ("auto_create_default_space_with_vid_desc", .union [.str, .noneType]),
   ("model_paths", .setStr),
   ("timezone_name", .str)]

/-- Class-level attribute values of `DjangoCarinaDatabaseSettings`: the fields
assigned a value in the class body.  `user_name`, `password` and
`auto_create_default_space_with_vid_desc` are annotated only, so they are not
class attributes (`hasattr` is false for them). -/
def djangoClassAttr : String → Option Value
  | "max_connection_pool_size" => some (.int 10)
  | "servers" => some (.strSet [])
  | "default_space" => some (.str "main")
  | "model_paths" => some (.strSet [])
  | "timezone_name" => some (.str "UTC")
  | _ => none

/-- `hasattr(DjangoCarinaDatabaseSettings, key)` restricted to the annotation
keys iterated by `__init__` (none of which names a method of the class). -/
def djangoHasClassAttr (key : String) : Bool :=
  (djangoClassAttr key).isSome

/-- The condition under which the `assert` in
`DjangoCarinaDatabaseSettings.__init__` fires for one annotation entry: the
annotation is not Optional, the class has no attribute of that name, and the
key is absent from `kwargs`. -/
def requiredMissing (kwargs : List (String × Value)) (kv : String × PyType) : Bool :=
  !(is_optional kv.2) && !(djangoHasClassAttr kv.1) && (kwargs.lookup kv.1).isNone

/-- One iteration of the `for key, type_ in __annotations__` loop of
`DjangoCarinaDatabaseSettings.__init__`: the `assert` fires (with the message
naming the key) when `requiredMissing`; otherwise the attribute is set exactly
when the key is present in `kwargs`. -/
def initStep (kwargs : List (String × Value)) (attrs : List (String × Value))
    (kv : String × PyType) : Except String (List (String × Value)) :=
  if requiredMissing kwargs kv then
    .error ("Setting " ++ kv.1 ++ " is required but not provided in CARINA_SETTINGS.")
  else
    .ok (match kwargs.lookup kv.1 with
      | some v => attrs ++ [(kv.1, v)]
      | none => attrs)

/-- Embedding of `DjangoCarinaDatabaseSettings.__init__(**kwargs)`: iterate the
annotations in order, asserting required keys and storing supplied ones; the
result is the instance attribute dictionary, or the message of the failed
`assert`. -/
def djangoCarinaInit (kwargs : List (String × Value)) :
    Except String (List (String × Value)) :=
  djangoAnnotations.foldlM (initStep kwargs) []

/-- Python attribute lookup on a constructed instance: the instance `__dict__`
first, then the class attributes; `none` models `AttributeError`. -/
def djangoGetattr (attrs : List (String × Value)) (key : String) : Option Value :=
  (attrs.lookup key).orElse (fun _ => djangoClassAttr key)

/-- A key is required in the Django path iff its annotation is not Optional
and the class has no attribute of that name. -/
def djangoRequired (key : String) : Bool :=
  match djangoAnnotations.lookup key with
  | some ty => !(is_optional ty) && !(djangoHasClassAttr key)
  | none => false

/-- The field annotations of the pydantic `DatabaseSettings` class
(`settings.py` lines 40-48), in declaration order. -/
def databaseSettingsAnnotations : List (String × PyType) :=
  [("max_connection_pool_size", .int),
   ("servers", .setStr),
   ("user_name", .union [.str, .noneType]),
   ("password", .union [.str, .noneType]),
   ("default_space", .str),
   ("auto_create_default_space_with_vid_desc", .union [.str, .noneType]),
   ("model_paths", .setStr),
   ("timezone_name", .str)]

/-- The declared default of each pydantic `DatabaseSettings` field; every
field of this class has one. -/
def databaseSettingsDefault : String → Option Value
  | "max_connection_pool_size" => some (.int 10)
  | "servers" => some (.strSet ["101.35.211.56:9669"])
  | "user_name" => some (.str "root")
  | "password" => some (.str "rkRK123@")
  | "default_space" => some (.str "main")
  | "auto_create_default_space_with_vid_desc" => some .none
  | "model_paths" => some (.strSet [])
  | "timezone_name" => some (.str "UTC")
  | _ => none

/-- A pydantic field is required iff it has no default; every field of
`DatabaseSettings` has a default, so none is. -/
def pydanticRequired (key : String) : Bool :=
  (databaseSettingsAnnotations.lookup key).isSome
    && (databaseSettingsDefault key).isNone

/-- The `database_settings` value of the non-Django path: `DatabaseSettings()`
constructed with no overriding environment, so every field holds its declared
default.  Attribute lookup on it. -/
def databaseSettingsGetattr (key : String) : Option Value :=
  databaseSettingsDefault key

/-- The Django-path default of a declared key (the class-level value), `none`
when the field has no class-level value. -/
def djangoDefault (key : String) : Option Value :=
  djangoClassAttr key

/-- The instance attribute dictionary a successful `__init__` run builds: one
entry `(key, kwargs[key])` per declared key present in `kwargs`, in
declaration order. -/
def genAttrs (kwargs : List (String × Value)) :
    List (String × PyType) → List (String × Value)
  | [] => []
  | kv :: rest =>
    (match kwargs.lookup kv.1 with
      | some v => [(kv.1, v)]
      | none => []) ++ genAttrs kwargs rest

lemma exceptBind_ok {ε α β : Type} (a : α) (f : α → Except ε β) :
    (Except.ok a >>= f) = f a := rfl

lemma exceptBind_error {ε α β : Type} (e : ε) (f : α → Except ε β) :
    (Except.error e >>= f : Except ε β) = Except.error e := rfl

/-- One loop iteration on a non-missing entry: stores the supplied value if
present. -/
lemma initStep_ok (kwargs attrs : List (String × Value)) (kv : String × PyType)
    (h : requiredMissing kwargs kv = false) :
    initStep kwargs attrs kv = .ok (match kwargs.lookup kv.1 with
      | some v => attrs ++ [(kv.1, v)]
      | none => attrs) := by
  simp [initStep, h]

/-- One loop iteration on a required-and-missing entry: fails with the assert
message naming the key. -/
lemma initStep_error (kwargs attrs : List (String × Value)) (kv : String × PyType)
    (h : requiredMissing kwargs kv = true) :
    initStep kwargs attrs kv =
      .error ("Setting " ++ kv.1 ++ " is required but not provided in CARINA_SETTINGS.") := by
  simp [initStep, h]

/-- When no annotation entry is required-and-missing, the `__init__` loop
succeeds and builds exactly `genAttrs`. -/
lemma foldlM_initStep_ok (kwargs : List (String × Value)) :
    ∀ (anns : List (String × PyType)) (acc : List (String × Value)),
      (∀ kv ∈ anns, requiredMissing kwargs kv = false) →
      anns.foldlM (initStep kwargs) acc = .ok (acc ++ genAttrs kwargs anns) := by
  intro anns
  induction anns with
  | nil =>
    intro acc _
    simp only [List.foldlM_nil, genAttrs, List.append_nil]
    rfl
  | cons kv rest ih =>
    intro acc h
    have hkv : requiredMissing kwargs kv = false := h kv (by simp)
    have hrest : ∀ kv ∈ rest, requiredMissing kwargs kv = false := by
      intro x hx; exact h x (by simp [hx])
    rw [List.foldlM_cons, initStep_ok kwargs acc kv hkv, exceptBind_ok, ih _ hrest]
    cases hl : kwargs.lookup kv.1 <;> simp [genAttrs, hl]

/-- When some annotation entry is required-and-missing, the `__init__` loop
fails with the assert message naming such an entry. -/
lemma foldlM_initStep_error (kwargs : List (String × Value)) :
    ∀ (anns : List (String × PyType)) (acc : List (String × Value)),
      (∃ kv ∈ anns, requiredMissing kwargs kv = true) →
      ∃ kv, kv ∈ anns ∧ requiredMissing kwargs kv = true ∧
        anns.foldlM (initStep kwargs) acc =
          .error ("Setting " ++ kv.1 ++ " is required but not provided in CARINA_SETTINGS.") := by
  intro anns
  induction anns with
  | nil => intro acc h; simp at h
  | cons kv rest ih =>
    intro acc h
    by_cases hkv : requiredMissing kwargs kv = true
    · refine ⟨kv, by simp, hkv, ?_⟩
      rw [List.foldlM_cons, initStep_error kwargs acc kv hkv, exceptBind_error]
    · have hkv' : requiredMissing kwargs kv = false := by
        cases hh : requiredMissing kwargs kv
        · rfl
        · exact absurd hh hkv
      have hrest : ∃ x ∈ rest, requiredMissing kwargs x = true := by
        rcases h with ⟨x, hx, hxr⟩
        rcases List.mem_cons.mp hx with rfl | hx'
        · exact absurd hxr hkv
        · exact ⟨x, hx', hxr⟩
      rcases ih (match kwargs.lookup kv.1 with
          | some v => acc ++ [(kv.1, v)]
          | none => acc) hrest with ⟨x, hx, hxr, hfold⟩
      refine ⟨x, by simp [hx], hxr, ?_⟩
      rw [List.foldlM_cons, initStep_ok kwargs acc kv hkv', exceptBind_ok]
      exact hfold

/-- A successful construction yields exactly `genAttrs`. -/
lemma djangoCarinaInit_ok_eq (kwargs attrs : List (String × Value))
    (h : djangoCarinaInit kwargs = .ok attrs) :
    attrs = genAttrs kwargs djangoAnnotations := by
  by_cases hreq : ∃ kv ∈ djangoAnnotations, requiredMissing kwargs kv = true
  · rcases foldlM_initStep_error kwargs djangoAnnotations [] hreq with ⟨kv, _, _, hfold⟩
    rw [djangoCarinaInit, hfold] at h
    cases h
  · have hok : ∀ kv ∈ djangoAnnotations, requiredMissing kwargs kv = false := by
      intro kv hkv
      cases hh : requiredMissing kwargs kv
      · rfl
      · exact absurd ⟨kv, hkv, hh⟩ hreq
    rw [djangoCarinaInit, foldlM_initStep_ok kwargs djangoAnnotations [] hok] at h
    cases h
    simp

/-- Lookup in the built attribute dictionary: a declared key maps to its
`kwargs` value, an undeclared key to nothing. -/
lemma lookup_genAttrs (kwargs : List (String × Value)) (k : String) :
    ∀ anns : List (String × PyType),
      (genAttrs kwargs anns).lookup k =
        if k ∈ anns.map Prod.fst then kwargs.lookup k else none := by
  intro anns
  induction anns with
  | nil => simp [genAttrs]
  | cons kv rest ih =>
    by_cases hk : k = kv.1
    · have hke : (k == kv.1) = true := by simp [hk]
      cases hl : kwargs.lookup kv.1 with
      | none =>
        have hgen : genAttrs kwargs (kv :: rest) = genAttrs kwargs rest := by
          simp [genAttrs, hl]
        rw [hgen, ih, hk, hl]
        simp [ite_self]
      | some v =>
        have hgen : genAttrs kwargs (kv :: rest) = (kv.1, v) :: genAttrs kwargs rest := by
          simp [genAttrs, hl]
        rw [hgen]
        simp [List.lookup, hke, hk, hl]
    · have hke : (k == kv.1) = false := by simp [hk]
      have hmem : (k ∈ kv.1 :: rest.map Prod.fst) ↔ k ∈ rest.map Prod.fst := by
        simp [List.mem_cons, hk]
      cases hl : kwargs.lookup kv.1 with
      | none =>
        have hgen : genAttrs kwargs (kv :: rest) = genAttrs kwargs rest := by
          simp [genAttrs, hl]
        rw [hgen, ih]
        exact (if_congr hmem rfl rfl).symm
      | some v =>
        have hgen : genAttrs kwargs (kv :: rest) = (kv.1, v) :: genAttrs kwargs rest := by
          simp [genAttrs, hl]
        rw [hgen]
        simp only [List.lookup, hke, ih]
        exact (if_congr hmem rfl rfl).symm

/-- The `__init__` loop reads `kwargs` only through lookups of declared keys. -/
lemma foldlM_initStep_congr (kwargs₁ kwargs₂ : List (String × Value)) :
    ∀ (anns : List (String × PyType)) (acc : List (String × Value)),
      (∀ kv ∈ anns, kwargs₁.lookup kv.1 = kwargs₂.lookup kv.1) →
      anns.foldlM (initStep kwargs₁) acc = anns.foldlM (initStep kwargs₂) acc := by
  intro anns
  induction anns with
  | nil => intro acc _; rfl
  | cons kv rest ih =>
    intro acc h
    have hkv : kwargs₁.lookup kv.1 = kwargs₂.lookup kv.1 := h kv (by simp)
    have hrm : requiredMissing kwargs₁ kv = requiredMissing kwargs₂ kv := by
      simp [requiredMissing, hkv]
    have hrest : ∀ x ∈ rest, kwargs₁.lookup x.1 = kwargs₂.lookup x.1 := by
      intro x hx; exact h x (by simp [hx])
    cases hc : requiredMissing kwargs₂ kv
    · rw [List.foldlM_cons, List.foldlM_cons,
        initStep_ok kwargs₁ acc kv (by rw [hrm, hc]),
        initStep_ok kwargs₂ acc kv hc, exceptBind_ok, exceptBind_ok, hkv,
        ih _ hrest]
    · rw [List.foldlM_cons, List.foldlM_cons,
        initStep_error kwargs₁ acc kv (by rw [hrm, hc]),
        initStep_error kwargs₂ acc kv hc, exceptBind_error, exceptBind_error]

/-- The required settings of the Django path are exactly `user_name` and
`password`: not Optional-annotated and without a class-level value. -/
lemma djangoRequired_iff (k : String) :
    djangoRequired k = true ↔ k = "user_name" ∨ k = "password" := by
  constructor
  · intro h
    by_cases h3 : k = "user_name"
    · exact Or.inl h3
    by_cases h4 : k = "password"
    · exact Or.inr h4
    by_cases h1 : k = "max_connection_pool_size"
    · subst h1; exact absurd h (by decide)
    by_cases h2 : k = "servers"
    · subst h2; exact absurd h (by decide)
    by_cases h5 : k = "default_space"
    · subst h5; exact absurd h (by decide)
    by_cases h6 : k = "auto_create_default_space_with_vid_desc"
    · subst h6; exact absurd h (by decide)
    by_cases h7 : k = "model_paths"
    · subst h7; exact absurd h (by decide)
    by_cases h8 : k = "timezone_name"
    · subst h8; exact absurd h (by decide)
    have hlk : djangoAnnotations.lookup k = none := by
      simp [djangoAnnotations, List.lookup,
        show (k == "max_connection_pool_size") = false from by simp [h1],
        show (k == "servers") = false from by simp [h2],
        show (k == "user_name") = false from by simp [h3],
        show (k == "password") = false from by simp [h4],
        show (k == "default_space") = false from by simp [h5],
        show (k == "auto_create_default_space_with_vid_desc") = false from by simp [h6],
        show (k == "model_paths") = false from by simp [h7],
        show (k == "timezone_name") = false from by simp [h8]]
    rw [djangoRequired, hlk] at h
    exact Bool.noConfusion h
  · rintro (rfl | rfl) <;> decide

/-- No annotation entry of the Django class is required-and-missing when both
`user_name` and `password` are supplied. -/
lemma no_requiredMissing_of_supplied (kwargs : List (String × Value))
    (hu : (kwargs.lookup "user_name").isSome)
    (hp : (kwargs.lookup "password").isSome) :
    ∀ kv ∈ djangoAnnotations, requiredMissing kwargs kv = false := by
  intro kv hkv
  rcases Option.isSome_iff_exists.mp hu with ⟨vu, hvu⟩
  rcases Option.isSome_iff_exists.mp hp with ⟨vp, hvp⟩
  simp only [djangoAnnotations, List.mem_cons, List.not_mem_nil, or_false] at hkv
  rcases hkv with rfl | rfl | rfl | rfl | rfl | rfl | rfl | rfl
  · simp [requiredMissing, show djangoHasClassAttr "max_connection_pool_size" = true from by decide]
  · simp [requiredMissing, show djangoHasClassAttr "servers" = true from by decide]
  · simp [requiredMissing, hvu]
  · simp [requiredMissing, hvp]
  · simp [requiredMissing, show djangoHasClassAttr "default_space" = true from by decide]
  · simp [requiredMissing, show is_optional (PyType.union [PyType.str, PyType.noneType]) = true from by decide]
  · simp [requiredMissing, show djangoHasClassAttr "model_paths" = true from by decide]
  · simp [requiredMissing, show djangoHasClassAttr "timezone_name" = true from by decide]

/-- C2: `DjangoCarinaDatabaseSettings` construction fails, with the assert
message naming the missing setting, exactly when one of the settings with
non-Optional annotation and no class-level value (`user_name`, `password`) is
absent from `kwargs`; it succeeds when both are supplied.  The first conjunct
identifies those required settings; the remaining conjuncts settle every
presence pattern of the two required keys. -/
theorem django_settings_required_fields (kwargs : List (String × Value)) :
    (∀ k, djangoRequired k = true ↔ k = "user_name" ∨ k = "password")
    ∧ ((kwargs.lookup "user_name").isSome → (kwargs.lookup "password").isSome →
        ∃ attrs, djangoCarinaInit kwargs = .ok attrs)
    ∧ (kwargs.lookup "user_name" = none →
        djangoCarinaInit kwargs =
          .error "Setting user_name is required but not provided in CARINA_SETTINGS.")
    ∧ ((kwargs.lookup "user_name").isSome → kwargs.lookup "password" = none →
        djangoCarinaInit kwargs =
          .error "Setting password is required but not provided in CARINA_SETTINGS.") := by
  refine ⟨djangoRequired_iff, ?_, ?_, ?_⟩
  · intro hu hp
    refine ⟨genAttrs kwargs djangoAnnotations, ?_⟩
    rw [djangoCarinaInit,
      foldlM_initStep_ok kwargs djangoAnnotations []
        (no_requiredMissing_of_supplied kwargs hu hp)]
    rw [List.nil_append]
  · intro hmiss
    rw [djangoCarinaInit]
    show djangoAnnotations.foldlM (initStep kwargs) [] = _
    rw [djangoAnnotations]
    rw [List.foldlM_cons, initStep_ok _ _ _
      (by simp [requiredMissing, show djangoHasClassAttr "max_connection_pool_size" = true from by decide]),
      exceptBind_ok]
    rw [List.foldlM_cons, initStep_ok _ _ _
      (by simp [requiredMissing, show djangoHasClassAttr "servers" = true from by decide]),
      exceptBind_ok]
    rw [List.foldlM_cons, initStep_error _ _ _
      (by simp [requiredMissing, hmiss,
        show djangoHasClassAttr "user_name" = false from by decide,
        show is_optional PyType.str = false from by decide]),
      exceptBind_error]
    rfl
  · intro hu hmiss
    rcases Option.isSome_iff_exists.mp hu with ⟨vu, hvu⟩
    rw [djangoCarinaInit]
    show djangoAnnotations.foldlM (initStep kwargs) [] = _
    rw [djangoAnnotations]
    rw [List.foldlM_cons, initStep_ok _ _ _
      (by simp [requiredMissing, show djangoHasClassAttr "max_connection_pool_size" = true from by decide]),
      exceptBind_ok]
    rw [List.foldlM_cons, initStep_ok _ _ _
      (by simp [requiredMissing, show djangoHasClassAttr "servers" = true from by decide]),
      exceptBind_ok]
    rw [List.foldlM_cons, initStep_ok _ _ _ (by simp [requiredMissing, hvu]),
      exceptBind_ok]
    rw [List.foldlM_cons, initStep_error _ _ _
      (by simp [requiredMissing, hmiss,
        show djangoHasClassAttr "password" = false from by decide,
        show is_optional PyType.str = false from by decide]),
      exceptBind_error]
    rfl

/-- C2 witness: missing `password` fails naming it; supplying both required
settings succeeds. -/
theorem django_settings_required_fields_witness :
    (djangoCarinaInit [("user_name", Value.str "u")] =
      .error "Setting password is required but not provided in CARINA_SETTINGS.")
    ∧ ∃ attrs, djangoCarinaInit
        [("user_name", Value.str "u"), ("password", Value.str "p")] = .ok attrs :=
  ⟨(django_settings_required_fields [("user_name", Value.str "u")]).2.2.2
      (by decide) (by decide),
   (django_settings_required_fields
      [("user_name", Value.str "u"), ("password", Value.str "p")]).2.1
      (by decide) (by decide)⟩

lemma isNoneType_iff (tp : PyType) : isNoneType tp = true ↔ tp = .noneType := by
  cases tp <;> simp [isNoneType]

/-- C3: `is_optional` returns true exactly on a `Union` whose argument types
include `NoneType`; on every non-Union type and every Union without
`NoneType` it returns false. -/
theorem is_optional_characterization (tp : PyType) :
    is_optional tp = true ↔ ∃ args, tp = .union args ∧ PyType.noneType ∈ args := by
  cases tp with
  | union args =>
    simp only [is_optional, List.any_eq_true, isNoneType_iff]
    constructor
    · rintro ⟨x, hx, rfl⟩
      exact ⟨args, rfl, hx⟩
    · rintro ⟨args', he, hmem⟩
      cases he
      exact ⟨_, hmem, rfl⟩
  | int => simp [is_optional]
  | str => simp [is_optional]
  | setStr => simp [is_optional]
  | noneType => simp [is_optional]

/-- C4: each `ConnectionConfig` capability field named by the spec is declared
by both settings-loading paths. -/
theorem both_paths_declare_connection_config_fields :
    (["max_connection_pool_size", "servers", "user_name", "password",
      "default_space", "auto_create_default_space_with_vid_desc",
      "timezone_name"].all (fun k =>
        (djangoAnnotations.map Prod.fst).contains k &&
        (databaseSettingsAnnotations.map Prod.fst).contains k)) = true := by
  decide

/-- C1 counterexample: the two settings-loading paths disagree on `servers`
(different defaults), on `user_name` and `password` (required in the Django
path, defaulted in the pydantic path), and on
`auto_create_default_space_with_vid_desc` (no value at all in the Django
path, defaulted to `None` in the pydantic path). -/
theorem settings_paths_disagree_counterexample :
    ("servers" ∈ djangoAnnotations.map Prod.fst ∧
     "servers" ∈ databaseSettingsAnnotations.map Prod.fst ∧
     djangoDefault "servers" ≠ databaseSettingsDefault "servers")
    ∧ (djangoRequired "user_name" = true ∧ pydanticRequired "user_name" = false)
    ∧ (djangoRequired "password" = true ∧ pydanticRequired "password" = false)
    ∧ djangoDefault "auto_create_default_space_with_vid_desc"
        ≠ databaseSettingsDefault "auto_create_default_space_with_vid_desc" := by
  decide

/-- C1 amended: outside the four divergent fields (`servers`, `user_name`,
`password`, `auto_create_default_space_with_vid_desc`), every field declared
by both paths has the same default value and the same required-versus-defaulted
status; in particular `default_space` defaults to `"main"` in both paths. -/
theorem settings_paths_agree_outside_divergent_fields (k : String)
    (h₁ : k ∈ djangoAnnotations.map Prod.fst)
    (h₂ : k ∈ databaseSettingsAnnotations.map Prod.fst)
    (h₃ : k ∉ ["servers", "user_name", "password",
      "auto_create_default_space_with_vid_desc"]) :
    djangoRequired k = pydanticRequired k
    ∧ djangoDefault k = databaseSettingsDefault k := by
  simp only [djangoAnnotations, List.map, List.mem_cons, List.not_mem_nil,
    or_false] at h₁
  rcases h₁ with rfl | rfl | rfl | rfl | rfl | rfl | rfl | rfl
  · decide
  · exact absurd (by decide) h₃
  · exact absurd (by decide) h₃
  · exact absurd (by decide) h₃
  · decide
  · exact absurd (by decide) h₃
  · decide
  · decide

/-- C1 amended witness: instantiated at `default_space`. -/
theorem settings_paths_agree_default_space_witness :
    djangoRequired "default_space" = pydanticRequired "default_space"
    ∧ djangoDefault "default_space" = databaseSettingsDefault "default_space" :=
  settings_paths_agree_outside_divergent_fields "default_space"
    (by decide) (by decide) (by decide)

/-- C8: in the Django path, when `auto_create_default_space_with_vid_desc` is
absent from the construction kwargs the constructed instance has no such
attribute at all (lookup fails, there being no class-level value either),
whereas the non-Django path's `database_settings` has it set to `None`. -/
theorem django_optional_setting_left_unset (kwargs attrs : List (String × Value))
    (hmiss : kwargs.lookup "auto_create_default_space_with_vid_desc" = none)
    (hok : djangoCarinaInit kwargs = .ok attrs) :
    djangoGetattr attrs "auto_create_default_space_with_vid_desc" = none
    ∧ databaseSettingsGetattr "auto_create_default_space_with_vid_desc"
        = some Value.none := by
  have hattrs := djangoCarinaInit_ok_eq kwargs attrs hok
  subst hattrs
  have h := lookup_genAttrs kwargs "auto_create_default_space_with_vid_desc"
    djangoAnnotations
  rw [if_pos (by decide)] at h
  refine ⟨?_, by decide⟩
  rw [djangoGetattr, h, hmiss]
  decide

/-- C8 witness: constructing with only the required settings leaves
`auto_create_default_space_with_vid_desc` unset. -/
theorem django_optional_setting_left_unset_witness :
    djangoGetattr [("user_name", Value.str "u"), ("password", Value.str "p")]
      "auto_create_default_space_with_vid_desc" = none
    ∧ databaseSettingsGetattr "auto_create_default_space_with_vid_desc"
        = some Value.none :=
  django_optional_setting_left_unset
    [("user_name", Value.str "u"), ("password", Value.str "p")]
    [("user_name", Value.str "u"), ("password", Value.str "p")]
    (by decide) (by rfl)

/-- C9: a kwargs key that is not a declared annotated setting raises no error,
sets no attribute, and leaves the construction result exactly as it would be
without the key. -/
theorem django_init_ignores_unknown_kwargs (kwargs : List (String × Value))
    (k : String) (v : Value) (hk : k ∉ djangoAnnotations.map Prod.fst) :
    djangoCarinaInit ((k, v) :: kwargs) = djangoCarinaInit kwargs
    ∧ ∀ attrs, djangoCarinaInit ((k, v) :: kwargs) = .ok attrs →
        attrs.lookup k = none := by
  have hcongr : ∀ kv ∈ djangoAnnotations,
      ((k, v) :: kwargs).lookup kv.1 = kwargs.lookup kv.1 := by
    intro kv hkv
    have hne : kv.1 ≠ k := by
      intro he
      exact hk (he ▸ List.mem_map_of_mem Prod.fst hkv)
    simp [List.lookup, show (kv.1 == k) = false from by simp [hne]]
  constructor
  · exact foldlM_initStep_congr _ _ djangoAnnotations [] hcongr
  · intro attrs hok
    have hattrs := djangoCarinaInit_ok_eq _ attrs hok
    subst hattrs
    have h := lookup_genAttrs ((k, v) :: kwargs) k djangoAnnotations
    rw [if_neg hk] at h
    exact h

/-- C9 witness: an `extra_key` entry is ignored. -/
theorem django_init_ignores_unknown_kwargs_witness :
    djangoCarinaInit [("extra_key", Value.int 1), ("user_name", Value.str "u"),
        ("password", Value.str "p")]
      = djangoCarinaInit [("user_name", Value.str "u"), ("password", Value.str "p")] :=
  (django_init_ignores_unknown_kwargs
    [("user_name", Value.str "u"), ("password", Value.str "p")]
    "extra_key" (Value.int 1) (by decide)).1

/-- C10: a declared setting key supplied in kwargs is stored on the instance
exactly as given — whatever the value, with no validation or coercion against
the key's annotated type. -/
theorem django_init_stores_values_verbatim (kwargs attrs : List (String × Value))
    (k : String) (v : Value)
    (hdecl : k ∈ djangoAnnotations.map Prod.fst)
    (hok : djangoCarinaInit kwargs = .ok attrs)
    (hkw : kwargs.lookup k = some v) :
    attrs.lookup k = some v ∧ djangoGetattr attrs k = some v := by
  have hattrs := djangoCarinaInit_ok_eq kwargs attrs hok
  subst hattrs
  have h := lookup_genAttrs kwargs k djangoAnnotations
  rw [if_pos hdecl, hkw] at h
  exact ⟨h, by rw [djangoGetattr, h]; rfl⟩

/-- C10 witness: a non-integer `max_connection_pool_size` is accepted and
stored unchanged. -/
theorem django_init_stores_values_verbatim_witness :
    List.lookup "max_connection_pool_size"
      [("max_connection_pool_size", Value.str "not_an_int"),
       ("user_name", Value.str "u"), ("password", Value.str "p")]
      = some (Value.str "not_an_int")
    ∧ djangoGetattr
        [("max_connection_pool_size", Value.str "not_an_int"),
         ("user_name", Value.str "u"), ("password", Value.str "p")]
        "max_connection_pool_size" = some (Value.str "not_an_int") :=
  django_init_stores_values_verbatim
    [("user_name", Value.str "u"), ("password", Value.str "p"),
     ("max_connection_pool_size", Value.str "not_an_int")]
    [("max_connection_pool_size", Value.str "not_an_int"),
     ("user_name", Value.str "u"), ("password", Value.str "p")]
    "max_connection_pool_size" (Value.str "not_an_int")
    (by decide) (by rfl) (by decide)

/-! ### Data-type serialization layer

The repository ships only tests for `nebula_carina/ngql/schema/data_types.py`;
the definitions below are modelled from the spec's literal-rendering rules
(strings double-quoted with escaped quote/backslash characters, integers as
plain decimal tokens with width bounds enforced by `validate`, booleans as
unquoted lowercase tokens, dates wrapped as `date("YYYY-MM-DD")`, datetimes
in a fixed canonical pattern). -/

/-- Modelled from the spec: escape embedded quote/backslash characters before
quoting a string value. -/
def escChars : List Char → List Char
  | [] => []
  | c :: cs =>
    if c = '\\' ∨ c = '"' then '\\' :: c :: escChars cs else c :: escChars cs

/-- Inverse rule for a quoted string body: consume characters up to the
closing quote (which must end the text), undoing the escapes. -/
def stringBody : List Char → Option (List Char)
  | [] => none
  | c :: cs =>
    if c = '"' then (if cs.isEmpty then some [] else none)
    else if c = '\\' then
      match cs with
      | [] => none
      | c2 :: cs2 =>
        if c2 = '\\' ∨ c2 = '"' then (stringBody cs2).map (fun l => c2 :: l)
        else none
    else (stringBody cs).map (fun l => c :: l)

/-- Parsing an escaped body followed by the closing quote recovers the
original characters. -/
lemma stringBody_escChars (s : List Char) :
    stringBody (escChars s ++ ['"']) = some s := by
  induction s with
  | nil => rfl
  | cons c cs ih =>
    by_cases hc : c = '\\' ∨ c = '"'
    · rw [escChars, if_pos hc]
      show stringBody ('\\' :: c :: (escChars cs ++ ['"'])) = _
      rw [stringBody.eq_def]
      simp only []
      rw [if_pos True.intro, if_pos hc, ih]
      rfl
    · rw [escChars, if_neg hc]
      push_neg at hc
      show stringBody (c :: (escChars cs ++ ['"'])) = _
      rw [stringBody.eq_def]
      simp only []
      rw [if_neg hc.2, if_neg hc.1, ih]
      rfl

/-- The decimal digit character for `d < 10`. -/
def digitChar (d : Nat) : Char := Char.ofNat (48 + d)

/-- The numeric value of a decimal digit character. -/
def digitVal (c : Char) : Nat := c.toNat - 48

lemma digitChar_isDigit (d : Nat) (h : d < 10) : (digitChar d).isDigit = true := by
  interval_cases d <;> decide

lemma digitVal_digitChar (d : Nat) (h : d < 10) : digitVal (digitChar d) = d := by
  interval_cases d <;> decide

/-- Decimal rendering of a natural number, with explicit fuel so that the
definition is structural (the fuel exceeds the number of digits whenever it
exceeds the number itself). -/
def renderNatAux : Nat → Nat → List Char
  | 0, _ => []
  | fuel + 1, n =>
    if n < 10 then [digitChar n]
    else renderNatAux fuel (n / 10) ++ [digitChar (n % 10)]

/-- Decimal rendering of a natural number. -/
def renderNat (n : Nat) : List Char := renderNatAux (n + 1) n

lemma renderNatAux_ne_nil (fuel n : Nat) (h : n < fuel) :
    renderNatAux fuel n ≠ [] := by
  match fuel with
  | 0 => omega
  | fuel + 1 =>
    rw [renderNatAux]
    split
    · simp
    · simp

lemma renderNatAux_digits (fuel : Nat) :
    ∀ n, n < fuel → ∀ c ∈ renderNatAux fuel n, c.isDigit = true := by
  induction fuel with
  | zero => intro n hn; omega
  | succ fuel ih =>
    intro n hn c hc
    rw [renderNatAux] at hc
    by_cases h : n < 10
    · rw [if_pos h] at hc
      simp only [List.mem_singleton] at hc
      subst hc
      exact digitChar_isDigit n h
    · rw [if_neg h] at hc
      rcases List.mem_append.mp hc with hc' | hc'
      · exact ih (n / 10) (by omega) c hc'
      · simp only [List.mem_singleton] at hc'
        subst hc'
        exact digitChar_isDigit _ (Nat.mod_lt _ (by omega))

lemma renderNatAux_foldl (fuel : Nat) :
    ∀ n, n < fuel →
      (renderNatAux fuel n).foldl (fun acc c => 10 * acc + digitVal c) 0 = n := by
  induction fuel with
  | zero => intro n hn; omega
  | succ fuel ih =>
    intro n hn
    rw [renderNatAux]
    by_cases h : n < 10
    · rw [if_pos h]
      simp only [List.foldl_cons, List.foldl_nil]
      rw [digitVal_digitChar n h]
      omega
    · rw [if_neg h]
      rw [List.foldl_append]
      rw [ih (n / 10) (by omega)]
      simp only [List.foldl_cons, List.foldl_nil]
      rw [digitVal_digitChar _ (Nat.mod_lt _ (by omega))]
      omega

lemma renderNat_ne_nil (n : Nat) : renderNat n ≠ [] :=
  renderNatAux_ne_nil (n + 1) n (by omega)

lemma renderNat_digits (n : Nat) : ∀ c ∈ renderNat n, c.isDigit = true :=
  renderNatAux_digits (n + 1) n (by omega)

lemma renderNat_foldl (n : Nat) :
    (renderNat n).foldl (fun acc c => 10 * acc + digitVal c) 0 = n :=
  renderNatAux_foldl (n + 1) n (by omega)

/-- Inverse rule for a decimal natural-number token. -/
def parseNat (cs : List Char) : Option Nat :=
  if !cs.isEmpty && cs.all Char.isDigit then
    some (cs.foldl (fun acc c => 10 * acc + digitVal c) 0)
  else none

lemma parseNat_renderNat (n : Nat) : parseNat (renderNat n) = some n := by
  rw [parseNat, if_pos, renderNat_foldl]
  rw [Bool.and_eq_true]
  constructor
  · rw [Bool.not_eq_true']
    rw [List.isEmpty_eq_false_iff_exists_mem]
    rcases List.exists_cons_of_ne_nil (renderNat_ne_nil n) with ⟨c, cs, hc⟩
    exact ⟨c, by rw [hc]; exact List.mem_cons_self c cs⟩
  · rw [List.all_eq_true]
    exact renderNat_digits n

/-- Decimal rendering of an integer: a leading minus for negatives, digits
otherwise. -/
def renderInt (n : Int) : List Char :=
  if n < 0 then '-' :: renderNat n.natAbs else renderNat n.toNat

/-- Inverse rule for a decimal integer token. -/
def parseInt (cs : List Char) : Option Int :=
  if cs.head? = some '-' then (parseNat cs.tail).map (fun m => -(Int.ofNat m))
  else (parseNat cs).map Int.ofNat

lemma parseInt_renderInt (n : Int) : parseInt (renderInt n) = some n := by
  by_cases h : n < 0
  · rw [renderInt, if_pos h, parseInt, List.head?_cons, if_pos rfl]
    rw [List.tail_cons, parseNat_renderNat]
    show some (-(Int.ofNat n.natAbs)) = some n
    congr 1
    simp only [Int.ofNat_eq_coe]
    omega
  · rw [renderInt, if_neg h, parseInt]
    rcases List.exists_cons_of_ne_nil (renderNat_ne_nil n.toNat) with ⟨c, cs', hc⟩
    have hcd : c.isDigit = true :=
      renderNat_digits n.toNat c (by rw [hc]; exact List.mem_cons_self c cs')
    have hcne : ¬ (renderNat n.toNat).head? = some '-' := by
      rw [hc]
      intro he
      have hce : c = '-' := Option.some.inj he
      rw [hce] at hcd
      exact absurd hcd (by decide)
    rw [if_neg hcne, parseNat_renderNat]
    show some (Int.ofNat n.toNat) = some n
    congr 1
    simp only [Int.ofNat_eq_coe]
    omega

/-- Zero-pad to two digits (canonical month/day/time fields). -/
def pad2 (n : Nat) : List Char :=
  if n < 10 then '0' :: renderNat n else renderNat n

/-- Zero-pad to four digits (canonical year field). -/
def pad4 (n : Nat) : List Char :=
  if n < 10 then '0' :: '0' :: '0' :: renderNat n
  else if n < 100 then '0' :: '0' :: renderNat n
  else if n < 1000 then '0' :: renderNat n
  else renderNat n

lemma parseNat_zero_cons (cs : List Char) (n : Nat) (h : parseNat cs = some n) :
    parseNat ('0' :: cs) = some n := by
  rw [parseNat] at h
  by_cases hc : (!cs.isEmpty && cs.all Char.isDigit) = true
  · rw [if_pos hc] at h
    rw [parseNat, if_pos]
    · rw [List.foldl_cons]
      rw [show (10 * 0 + digitVal '0') = 0 from by decide]
      exact h
    · rw [Bool.and_eq_true] at hc ⊢
      refine ⟨by simp, ?_⟩
      rw [List.all_cons, hc.2]
      simp
  · rw [if_neg hc] at h
    cases h

lemma parseNat_pad2 (n : Nat) : parseNat (pad2 n) = some n := by
  rw [pad2]
  split
  · exact parseNat_zero_cons _ _ (parseNat_renderNat n)
  · exact parseNat_renderNat n

lemma parseNat_pad4 (n : Nat) : parseNat (pad4 n) = some n := by
  rw [pad4]
  split
  · exact parseNat_zero_cons _ _ (parseNat_zero_cons _ _
      (parseNat_zero_cons _ _ (parseNat_renderNat n)))
  split
  · exact parseNat_zero_cons _ _ (parseNat_zero_cons _ _ (parseNat_renderNat n))
  split
  · exact parseNat_zero_cons _ _ (parseNat_renderNat n)
  · exact parseNat_renderNat n

lemma pad2_digits (n : Nat) : ∀ c ∈ pad2 n, c.isDigit = true := by
  intro c hc
  rw [pad2] at hc
  split at hc
  · rcases List.mem_cons.mp hc with rfl | hc'
    · decide
    · exact renderNat_digits n c hc'
  · exact renderNat_digits n c hc

lemma pad4_digits (n : Nat) : ∀ c ∈ pad4 n, c.isDigit = true := by
  intro c hc
  rw [pad4] at hc
  split at hc
  · rcases List.mem_cons.mp hc with rfl | hc'
    · decide
    rcases List.mem_cons.mp hc' with rfl | hc''
    · decide
    rcases List.mem_cons.mp hc'' with rfl | hc'''
    · decide
    · exact renderNat_digits n c hc'''
  split at hc
  · rcases List.mem_cons.mp hc with rfl | hc'
    · decide
    rcases List.mem_cons.mp hc' with rfl | hc''
    · decide
    · exact renderNat_digits n c hc''
  split at hc
  · rcases List.mem_cons.mp hc with rfl | hc'
    · decide
    · exact renderNat_digits n c hc'
  · exact renderNat_digits n c hc

lemma isDigit_ne_of_not_digit (c c' : Char) (h : c.isDigit = true)
    (h' : c'.isDigit = false) : c ≠ c' := by
  intro he
  rw [he, h'] at h
  cases h

/-- Consume characters up to (and dropping) the first occurrence of the
separator. -/
def takeUntil (sep : Char) : List Char → Option (List Char × List Char)
  | [] => none
  | c :: cs =>
    if c = sep then some ([], cs)
    else (takeUntil sep cs).map (fun p => (c :: p.1, p.2))

lemma takeUntil_append (sep : Char) (pre rest : List Char)
    (hpre : ∀ c ∈ pre, c ≠ sep) :
    takeUntil sep (pre ++ sep :: rest) = some (pre, rest) := by
  induction pre with
  | nil =>
    show takeUntil sep (sep :: rest) = _
    rw [takeUntil, if_pos rfl]
  | cons c cs ih =>
    have hc : ¬ c = sep := hpre c (by simp)
    show takeUntil sep (c :: (cs ++ sep :: rest)) = _
    rw [takeUntil, if_neg hc, ih (fun x hx => hpre x (by simp [hx]))]
    rfl

/-- The canonical `YYYY-MM-DD` date body. -/
def renderDateBody (y m d : Nat) : List Char :=
  pad4 y ++ '-' :: (pad2 m ++ '-' :: pad2 d)

/-- The full `date("YYYY-MM-DD")` literal. -/
def renderDateChars (y m d : Nat) : List Char :=
  'd' :: 'a' :: 't' :: 'e' :: '(' :: '"' :: (renderDateBody y m d ++ '"' :: ')' :: [])

/-- The canonical `YYYY-MM-DDThh:mm:ss` datetime body. -/
def renderDatetimeBody (y mo d h mi s : Nat) : List Char :=
  renderDateBody y mo d ++ 'T' :: (pad2 h ++ ':' :: (pad2 mi ++ ':' :: pad2 s))

/-- The full `datetime("YYYY-MM-DDThh:mm:ss")` literal. -/
def renderDatetimeChars (y mo d h mi s : Nat) : List Char :=
  'd' :: 'a' :: 't' :: 'e' :: 't' :: 'i' :: 'm' :: 'e' :: '(' :: '"' ::
    (renderDatetimeBody y mo d h mi s ++ '"' :: ')' :: [])

/-- Strip an expected literal character sequence off the front of the text. -/
def stripPre : List Char → List Char → Option (List Char)
  | [], cs => some cs
  | _ :: _, [] => none
  | p :: ps, c :: cs => if c = p then stripPre ps cs else none

lemma stripPre_append (pre rest : List Char) :
    stripPre pre (pre ++ rest) = some rest := by
  induction pre with
  | nil => rfl
  | cons p ps ih =>
    show stripPre (p :: ps) (p :: (ps ++ rest)) = some rest
    rw [stripPre, if_pos rfl, ih]

lemma optBind_some {α β : Type} (a : α) (f : α → Option β) :
    (Option.bind (some a) f) = f a := rfl

/-- Inverse rule for the date literal. -/
def parseDateChars (cs : List Char) : Option (Nat × Nat × Nat) :=
  (stripPre ['d', 'a', 't', 'e', '(', '"'] cs).bind (fun rest =>
    (takeUntil '-' rest).bind (fun p1 =>
      (takeUntil '-' p1.2).bind (fun p2 =>
        (takeUntil '"' p2.2).bind (fun p3 =>
          if p3.2 = [')'] then
            (parseNat p1.1).bind (fun y =>
              (parseNat p2.1).bind (fun m =>
                (parseNat p3.1).map (fun d => (y, m, d))))
          else none))))

/-- Inverse rule for the datetime literal. -/
def parseDatetimeChars (cs : List Char) :
    Option (Nat × Nat × Nat × Nat × Nat × Nat) :=
  (stripPre ['d', 'a', 't', 'e', 't', 'i', 'm', 'e', '(', '"'] cs).bind (fun rest =>
    (takeUntil '-' rest).bind (fun p1 =>
      (takeUntil '-' p1.2).bind (fun p2 =>
        (takeUntil 'T' p2.2).bind (fun p3 =>
          (takeUntil ':' p3.2).bind (fun p4 =>
            (takeUntil ':' p4.2).bind (fun p5 =>
              (takeUntil '"' p5.2).bind (fun p6 =>
                if p6.2 = [')'] then
                  (parseNat p1.1).bind (fun y =>
                    (parseNat p2.1).bind (fun mo =>
                      (parseNat p3.1).bind (fun d =>
                        (parseNat p4.1).bind (fun h =>
                          (parseNat p5.1).bind (fun mi =>
                            (parseNat p6.1).map (fun s =>
                              (y, mo, d, h, mi, s)))))))
                else none)))))))

lemma pad2_ne (n : Nat) (c : Char) (hc : c.isDigit = false) :
    ∀ x ∈ pad2 n, x ≠ c :=
  fun x hx => isDigit_ne_of_not_digit x c (pad2_digits n x hx) hc

lemma pad4_ne (n : Nat) (c : Char) (hc : c.isDigit = false) :
    ∀ x ∈ pad4 n, x ≠ c :=
  fun x hx => isDigit_ne_of_not_digit x c (pad4_digits n x hx) hc

lemma parseDateChars_render (y m d : Nat) :
    parseDateChars (renderDateChars y m d) = some (y, m, d) := by
  rw [parseDateChars]
  rw [show renderDateChars y m d = ['d', 'a', 't', 'e', '(', '"'] ++
    (pad4 y ++ '-' :: (pad2 m ++ '-' :: (pad2 d ++ '"' :: [')'])))
    from by rw [renderDateChars, renderDateBody]; simp [List.append_assoc]]
  rw [stripPre_append, optBind_some]
  rw [takeUntil_append '-' (pad4 y) _ (pad4_ne y '-' (by decide)), optBind_some]
  rw [takeUntil_append '-' (pad2 m) _ (pad2_ne m '-' (by decide)), optBind_some]
  rw [takeUntil_append '"' (pad2 d) [')'] (pad2_ne d '"' (by decide)), optBind_some]
  rw [if_pos rfl]
  rw [parseNat_pad4, optBind_some, parseNat_pad2, optBind_some, parseNat_pad2]
  rfl

lemma parseDatetimeChars_render (y mo d h mi s : Nat) :
    parseDatetimeChars (renderDatetimeChars y mo d h mi s)
      = some (y, mo, d, h, mi, s) := by
  rw [parseDatetimeChars]
  rw [show renderDatetimeChars y mo d h mi s =
    ['d', 'a', 't', 'e', 't', 'i', 'm', 'e', '(', '"'] ++
    (pad4 y ++ '-' :: (pad2 mo ++ '-' :: (pad2 d ++ 'T' ::
      (pad2 h ++ ':' :: (pad2 mi ++ ':' :: (pad2 s ++ '"' :: [')']))))))
    from by
      rw [renderDatetimeChars, renderDatetimeBody, renderDateBody]
      simp [List.append_assoc]]
  rw [stripPre_append, optBind_some]
  rw [takeUntil_append '-' (pad4 y) _ (pad4_ne y '-' (by decide)), optBind_some]
  rw [takeUntil_append '-' (pad2 mo) _ (pad2_ne mo '-' (by decide)), optBind_some]
  rw [takeUntil_append 'T' (pad2 d) _ (pad2_ne d 'T' (by decide)), optBind_some]
  rw [takeUntil_append ':' (pad2 h) _ (pad2_ne h ':' (by decide)), optBind_some]
  rw [takeUntil_append ':' (pad2 mi) _ (pad2_ne mi ':' (by decide)), optBind_some]
  rw [takeUntil_append '"' (pad2 s) [')'] (pad2_ne s '"' (by decide)), optBind_some]
  rw [if_pos rfl]
  rw [parseNat_pad4, optBind_some, parseNat_pad2, optBind_some, parseNat_pad2,
    optBind_some, parseNat_pad2, optBind_some, parseNat_pad2, optBind_some,
    parseNat_pad2]
  rfl

/-- A finite decimal (the native values of the float/double descriptors that
admit exact literal text): sign, integer part, and the list of fractional
digits.  Rendered as `-? <integer digits> . <fractional digits>`. -/
def renderFloatChars (neg : Bool) (ip : Nat) (frac : List Nat) : List Char :=
  (if neg then ['-'] else []) ++ (renderNat ip ++ '.' :: frac.map digitChar)

/-- Inverse rule for the fractional digits of a float literal. -/
def parseFracDigits (cs : List Char) : Option (List Nat) :=
  if !cs.isEmpty && cs.all Char.isDigit then some (cs.map digitVal) else none

/-- Inverse rule for an unsigned float body `<digits>.<digits>`. -/
def parseFloatBody (cs : List Char) : Option (Nat × List Nat) :=
  (takeUntil '.' cs).bind (fun p =>
    (parseNat p.1).bind (fun ip =>
      (parseFracDigits p.2).map (fun frac => (ip, frac))))

/-- Inverse rule for a float literal, with an optional leading minus. -/
def parseFloatChars (cs : List Char) : Option (Bool × Nat × List Nat) :=
  if cs.head? = some '-' then
    (parseFloatBody cs.tail).map (fun p => (true, p.1, p.2))
  else
    (parseFloatBody cs).map (fun p => (false, p.1, p.2))

lemma map_digitVal_digitChar (l : List Nat) (h : ∀ d ∈ l, d < 10) :
    (l.map digitChar).map digitVal = l := by
  induction l with
  | nil => rfl
  | cons d ds ih =>
    simp only [List.map_cons, List.cons.injEq]
    exact ⟨digitVal_digitChar d (h d (by simp)),
      ih (fun x hx => h x (by simp [hx]))⟩

lemma parseFracDigits_map (frac : List Nat) (hne : frac ≠ [])
    (h : ∀ d ∈ frac, d < 10) :
    parseFracDigits (frac.map digitChar) = some frac := by
  rw [parseFracDigits, if_pos, map_digitVal_digitChar frac h]
  rw [Bool.and_eq_true]
  constructor
  · rw [Bool.not_eq_true']
    cases frac with
    | nil => exact absurd rfl hne
    | cons d ds => rfl
  · rw [List.all_eq_true]
    intro c hc
    rcases List.mem_map.mp hc with ⟨d, hd, rfl⟩
    exact digitChar_isDigit d (h d hd)

lemma parseFloatBody_render (ip : Nat) (frac : List Nat) (hne : frac ≠ [])
    (h : ∀ d ∈ frac, d < 10) :
    parseFloatBody (renderNat ip ++ '.' :: frac.map digitChar) = some (ip, frac) := by
  rw [parseFloatBody]
  rw [takeUntil_append '.' (renderNat ip) _
    (fun x hx => isDigit_ne_of_not_digit x '.' (renderNat_digits ip x hx) (by decide))]
  rw [optBind_some, parseNat_renderNat, optBind_some,
    parseFracDigits_map frac hne h]
  rfl

lemma parseFloatChars_render (neg : Bool) (ip : Nat) (frac : List Nat)
    (hne : frac ≠ []) (h : ∀ d ∈ frac, d < 10) :
    parseFloatChars (renderFloatChars neg ip frac) = some (neg, ip, frac) := by
  cases neg with
  | true =>
    rw [renderFloatChars]
    rw [show ((if true then ['-'] else []) ++ (renderNat ip ++ '.' :: frac.map digitChar))
      = '-' :: (renderNat ip ++ '.' :: frac.map digitChar) from rfl]
    rw [parseFloatChars, List.head?_cons, if_pos rfl, List.tail_cons,
      parseFloatBody_render ip frac hne h]
    rfl
  | false =>
    rw [renderFloatChars]
    rw [show ((if false then ['-'] else []) ++ (renderNat ip ++ '.' :: frac.map digitChar))
      = renderNat ip ++ '.' :: frac.map digitChar from by rw [if_neg (by simp)]; rfl]
    rcases List.exists_cons_of_ne_nil (renderNat_ne_nil ip) with ⟨c, cs', hc⟩
    have hcd : c.isDigit = true :=
      renderNat_digits ip c (by rw [hc]; exact List.mem_cons_self c cs')
    have hcne : ¬ (renderNat ip ++ '.' :: frac.map digitChar).head? = some '-' := by
      rw [hc]
      intro he
      have hce : c = '-' := Option.some.inj he
      rw [hce] at hcd
      exact absurd hcd (by decide)
    rw [parseFloatChars, if_neg hcne, parseFloatBody_render ip frac hne h]
    rfl

/-- Modelled from the spec: the fixed catalog of scalar type descriptors with
a specified literal-serialization rule (string, fixed-width string, signed
integers of multiple widths, boolean, float/double, date, datetime); the
missing source is `nebula_carina/ngql/schema/data_types.py`, for which the
repository ships only tests. -/
inductive DType : Type
  | string : DType
  | fixedString : Nat → DType
  | int8 : DType
  | int16 : DType
  | int32 : DType
  | int64 : DType
  | bool : DType
  | float : DType
  | double : DType
  | date : DType
  | datetime : DType
deriving DecidableEq

/-- Modelled from the spec: the native values the data types accept. -/
inductive DataValue : Type
  | str : List Char → DataValue
  | int : Int → DataValue
  | bool : Bool → DataValue
  | float : Bool → Nat → List Nat → DataValue
  | date : Nat → Nat → Nat → DataValue
  | datetime : Nat → Nat → Nat → Nat → Nat → Nat → DataValue
deriving DecidableEq

/-- Modelled from the spec: `validate` — native-value constraints per type;
numeric widths enforced as signed ranges, fixed strings bounded by their
length, date/time fields within their calendar/clock ranges, and a value of
the wrong kind rejected. -/
def validate : DType → DataValue → Bool
  | .string, .str _ => true
  | .fixedString maxLen, .str s => decide (s.length ≤ maxLen)
  | .int8, .int n => decide (-(2 ^ 7) ≤ n) && decide (n < 2 ^ 7)
  | .int16, .int n => decide (-(2 ^ 15) ≤ n) && decide (n < 2 ^ 15)
  | .int32, .int n => decide (-(2 ^ 31) ≤ n) && decide (n < 2 ^ 31)
  | .int64, .int n => decide (-(2 ^ 63) ≤ n) && decide (n < 2 ^ 63)
  | .bool, .bool _ => true
  | .float, .float _ _ frac =>
    decide (frac ≠ []) && frac.all (fun d => decide (d < 10))
  | .double, .float _ _ frac =>
    decide (frac ≠ []) && frac.all (fun d => decide (d < 10))
  | .date, .date y m d =>
    decide (y ≤ 9999) && decide (1 ≤ m) && decide (m ≤ 12)
      && decide (1 ≤ d) && decide (d ≤ 31)
  | .datetime, .datetime y mo d h mi s =>
    decide (y ≤ 9999) && decide (1 ≤ mo) && decide (mo ≤ 12)
      && decide (1 ≤ d) && decide (d ≤ 31) && decide (h ≤ 23)
      && decide (mi ≤ 59) && decide (s ≤ 59)
  | _, _ => false

/-- Modelled from the spec: `to_literal` — the literal text per type: strings
double-quoted with escapes, integers as plain decimal tokens, booleans as
unquoted lowercase tokens, dates as `date("YYYY-MM-DD")`, datetimes in the
canonical pattern.  (A value of a kind the type does not accept never passes
`validate`; the catch-all arm is irrelevant.) -/
def toLiteralChars : DType → DataValue → List Char
  | .string, .str s => '"' :: (escChars s ++ ['"'])
  | .fixedString _, .str s => '"' :: (escChars s ++ ['"'])
  | .int8, .int n => renderInt n
  | .int16, .int n => renderInt n
  | .int32, .int n => renderInt n
  | .int64, .int n => renderInt n
  | .bool, .bool b => if b then ['t', 'r', 'u', 'e'] else ['f', 'a', 'l', 's', 'e']
  | .float, .float neg ip frac => renderFloatChars neg ip frac
  | .double, .float neg ip frac => renderFloatChars neg ip frac
  | .date, .date y m d => renderDateChars y m d
  | .datetime, .datetime y mo d h mi s => renderDatetimeChars y mo d h mi s
  | _, _ => []

/-- Modelled from the spec: `value2db_str`, the literal form as text. -/
def value2db_str (dt : DType) (v : DataValue) : String :=
  String.mk (toLiteralChars dt v)

/-- Inverse rule for a quoted string literal. -/
def parseStringLit (cs : List Char) : Option DataValue :=
  match cs with
  | '"' :: rest => (stringBody rest).map DataValue.str
  | _ => none

/-- The inverse rule of each data type: parse the literal text back into a
native value. -/
def parseLiteral (dt : DType) (s : String) : Option DataValue :=
  match dt with
  | .string => parseStringLit s.data
  | .fixedString _ => parseStringLit s.data
  | .int8 => (parseInt s.data).map DataValue.int
  | .int16 => (parseInt s.data).map DataValue.int
  | .int32 => (parseInt s.data).map DataValue.int
  | .int64 => (parseInt s.data).map DataValue.int
  | .bool =>
    if s = "true" then some (.bool true)
    else if s = "false" then some (.bool false) else none
  | .float => (parseFloatChars s.data).map (fun t => DataValue.float t.1 t.2.1 t.2.2)
  | .double => (parseFloatChars s.data).map (fun t => DataValue.float t.1 t.2.1 t.2.2)
  | .date => (parseDateChars s.data).map (fun t => DataValue.date t.1 t.2.1 t.2.2)
  | .datetime => (parseDatetimeChars s.data).map (fun t =>
      DataValue.datetime t.1 t.2.1 t.2.2.1 t.2.2.2.1 t.2.2.2.2.1 t.2.2.2.2.2)

lemma parseLiteral_string_mk (dt : DType) (cs : List Char) :
    parseLiteral dt (String.mk cs) =
      parseLiteral dt (String.mk cs) := rfl

/-- C5: round-trip law — every value accepted by a data type's `validate`
serializes to literal text that the type's inverse rule parses back to an
equal value; and the Date type renders 2023-01-01 as `date("2023-01-01")`. -/
theorem data_type_literal_round_trip :
    (∀ (dt : DType) (v : DataValue), validate dt v = true →
      parseLiteral dt (value2db_str dt v) = some v)
    ∧ value2db_str DType.date (DataValue.date 2023 1 1) = "date(\"2023-01-01\")" := by
  constructor
  · intro dt v hv
    cases dt <;> cases v <;> simp only [validate.eq_def] at hv <;>
      try exact Bool.noConfusion hv
    case string.str s =>
      show parseStringLit ('"' :: (escChars s ++ ['"'])) = some (.str s)
      rw [parseStringLit, stringBody_escChars]
      rfl
    case fixedString.str maxLen s =>
      show parseStringLit ('"' :: (escChars s ++ ['"'])) = some (.str s)
      rw [parseStringLit, stringBody_escChars]
      rfl
    case int8.int n =>
      show (parseInt (renderInt n)).map DataValue.int = some (.int n)
      rw [parseInt_renderInt]; rfl
    case int16.int n =>
      show (parseInt (renderInt n)).map DataValue.int = some (.int n)
      rw [parseInt_renderInt]; rfl
    case int32.int n =>
      show (parseInt (renderInt n)).map DataValue.int = some (.int n)
      rw [parseInt_renderInt]; rfl
    case int64.int n =>
      show (parseInt (renderInt n)).map DataValue.int = some (.int n)
      rw [parseInt_renderInt]; rfl
    case bool.bool b =>
      cases b <;> decide
    case float.float neg ip frac =>
      rw [Bool.and_eq_true, decide_eq_true_iff, List.all_eq_true] at hv
      show (parseFloatChars (renderFloatChars neg ip frac)).map _ = _
      rw [parseFloatChars_render neg ip frac hv.1
        (fun d hd => of_decide_eq_true (hv.2 d hd))]
      rfl
    case double.float neg ip frac =>
      rw [Bool.and_eq_true, decide_eq_true_iff, List.all_eq_true] at hv
      show (parseFloatChars (renderFloatChars neg ip frac)).map _ = _
      rw [parseFloatChars_render neg ip frac hv.1
        (fun d hd => of_decide_eq_true (hv.2 d hd))]
      rfl
    case date.date y m d =>
      show (parseDateChars (renderDateChars y m d)).map _ = _
      rw [parseDateChars_render]
      rfl
    case datetime.datetime y mo d h mi s =>
      show (parseDatetimeChars (renderDatetimeChars y mo d h mi s)).map _ = _
      rw [parseDatetimeChars_render]
      rfl
  · decide

/-- C5 witness: the round trip instantiated at `Int16` on 42, at `Date` on
2023-01-01, and at `Float` on 1.5. -/
theorem data_type_literal_round_trip_witness :
    validate DType.int16 (DataValue.int 42) = true
    ∧ parseLiteral DType.int16 (value2db_str DType.int16 (DataValue.int 42))
        = some (DataValue.int 42)
    ∧ parseLiteral DType.date (value2db_str DType.date (DataValue.date 2023 1 1))
        = some (DataValue.date 2023 1 1)
    ∧ parseLiteral DType.float (value2db_str DType.float (DataValue.float false 1 [5]))
        = some (DataValue.float false 1 [5]) :=
  ⟨by decide,
   data_type_literal_round_trip.1 DType.int16 (DataValue.int 42) (by decide),
   data_type_literal_round_trip.1 DType.date (DataValue.date 2023 1 1) (by decide),
   data_type_literal_round_trip.1 DType.float (DataValue.float false 1 [5]) (by decide)⟩

/-- C6: the boolean data type serializes every boolean to an unquoted
lowercase token — `True` to `true` and `False` to `false`. -/
theorem bool_serializes_to_lowercase_tokens :
    value2db_str DType.bool (DataValue.bool true) = "true"
    ∧ value2db_str DType.bool (DataValue.bool false) = "false" := by
  decide

/-! ### Schema-name derivation

`db_name()` of the entity-model base class lives in
`nebula_carina/models/models.py`, for which the repository ships only tests;
the derivation is modelled from the spec: a deterministic name computed from
the class identity — the camel-case class name converted to snake case, as
the tests pin down (`TestTagModel` ↦ `test_tag_model`,
`TestEdgeTypeModel` ↦ `test_edge_type_model`). -/

/-- ASCII uppercase test. -/
def isUpperAscii (c : Char) : Bool :=
  decide (65 ≤ c.toNat) && decide (c.toNat ≤ 90)

/-- ASCII lowercasing. -/
def lowerChar (c : Char) : Char :=
  if isUpperAscii c then Char.ofNat (c.toNat + 32) else c

/-- Snake-case conversion of the characters after the first: each uppercase
letter becomes an underscore followed by its lowercase form. -/
def camelToSnakeAux : List Char → List Char
  | [] => []
  | c :: cs => (if isUpperAscii c then ['_', lowerChar c] else [c]) ++ camelToSnakeAux cs

/-- Modelled from the spec: `db_name()` — the memoized database-visible name
derived from the class name. -/
def db_name (className : String) : String :=
  match className.data with
  | [] => ""
  | c :: cs => String.mk (lowerChar c :: camelToSnakeAux cs)

lemma toNat_ofNat_valid (n : Nat) (h : n.isValidChar) :
    (Char.ofNat n).toNat = n := by
  rw [Char.ofNat, dif_pos h]
  simp [Char.ofNatAux, Char.toNat, UInt32.toNat]

lemma char_toNat_inj (c1 c2 : Char) (h : c1.toNat = c2.toNat) : c1 = c2 := by
  apply Char.ext
  apply UInt32.eq_of_toBitVec_eq
  apply BitVec.eq_of_toNat_eq
  exact h

lemma lowerChar_inj (c1 c2 : Char) (h1 : isUpperAscii c1 = true)
    (h2 : isUpperAscii c2 = true) (h : lowerChar c1 = lowerChar c2) : c1 = c2 := by
  have b1 : 65 ≤ c1.toNat ∧ c1.toNat ≤ 90 := by
    rw [isUpperAscii, Bool.and_eq_true, decide_eq_true_iff, decide_eq_true_iff] at h1
    exact h1
  have b2 : 65 ≤ c2.toNat ∧ c2.toNat ≤ 90 := by
    rw [isUpperAscii, Bool.and_eq_true, decide_eq_true_iff, decide_eq_true_iff] at h2
    exact h2
  rw [lowerChar, if_pos h1, lowerChar, if_pos h2] at h
  have v1 : (Char.ofNat (c1.toNat + 32)).toNat = c1.toNat + 32 :=
    toNat_ofNat_valid _ (Or.inl (by omega))
  have v2 : (Char.ofNat (c2.toNat + 32)).toNat = c2.toNat + 32 :=
    toNat_ofNat_valid _ (Or.inl (by omega))
  apply char_toNat_inj
  have := congrArg Char.toNat h
  rw [v1, v2] at this
  omega

lemma camelToSnakeAux_ne_nil (c : Char) (cs : List Char) :
    camelToSnakeAux (c :: cs) ≠ [] := by
  rw [camelToSnakeAux]
  split <;> simp

lemma camelToSnakeAux_inj : ∀ (l1 l2 : List Char),
    (∀ c ∈ l1, c ≠ '_') → (∀ c ∈ l2, c ≠ '_') →
    camelToSnakeAux l1 = camelToSnakeAux l2 → l1 = l2 := by
  intro l1
  induction l1 with
  | nil =>
    intro l2 _ _ he
    cases l2 with
    | nil => rfl
    | cons c cs => exact absurd he.symm (camelToSnakeAux_ne_nil c cs)
  | cons c1 cs1 ih =>
    intro l2 hu1 hu2 he
    cases l2 with
    | nil => exact absurd he (camelToSnakeAux_ne_nil c1 cs1)
    | cons c2 cs2 =>
      have hu1' : ∀ c ∈ cs1, c ≠ '_' := fun c hc => hu1 c (by simp [hc])
      have hu2' : ∀ c ∈ cs2, c ≠ '_' := fun c hc => hu2 c (by simp [hc])
      rw [camelToSnakeAux, camelToSnakeAux] at he
      by_cases u1 : isUpperAscii c1 = true
      · by_cases u2 : isUpperAscii c2 = true
        · rw [if_pos u1, if_pos u2] at he
          simp only [List.cons_append, List.nil_append, List.cons.injEq] at he
          rcases he with ⟨-, hlc, htail⟩
          rw [lowerChar_inj c1 c2 u1 u2 hlc, ih cs2 hu1' hu2' htail]
        · rw [if_pos u1, if_neg u2] at he
          simp only [List.cons_append, List.nil_append, List.cons.injEq] at he
          exact absurd he.1.symm (hu2 c2 (by simp))
      · by_cases u2 : isUpperAscii c2 = true
        · rw [if_neg u1, if_pos u2] at he
          simp only [List.cons_append, List.nil_append, List.cons.injEq] at he
          exact absurd he.1 (hu1 c1 (by simp))
        · rw [if_neg u1, if_neg u2] at he
          simp only [List.cons_append, List.nil_append, List.cons.injEq] at he
          rw [he.1, ih cs2 hu1' hu2' he.2]

/-- C7 counterexample: without a naming convention, two distinct class names
that were not deliberately named the same collide — `AB` and `A_b` both
derive the database name `a_b`. -/
theorem db_name_collision_counterexample :
    ("AB" : String) ≠ "A_b" ∧ db_name "AB" = db_name "A_b" := by
  decide

/-- C7 amended: `db_name` is a pure function of the class (two calls on the
same class agree), maps the test classes to their pinned names, gives the two
distinct test classes distinct names, and on conventionally named classes
(nonempty camel-case name: leading uppercase ASCII letter, no underscores)
two distinct classes never share a database name; the convention is necessary,
as the counterexample `AB`/`A_b` shows. -/
theorem db_name_deterministic_injective :
    (∀ className : String, db_name className = db_name className)
    ∧ db_name "TestTagModel" = "test_tag_model"
    ∧ db_name "TestEdgeTypeModel" = "test_edge_type_model"
    ∧ db_name "TestTagModel" ≠ db_name "TestEdgeTypeModel"
    ∧ (∀ n1 n2 : String,
        (∀ c ∈ n1.data, c ≠ '_') → (∀ c ∈ n2.data, c ≠ '_') →
        n1.data.head?.all isUpperAscii = true →
        n2.data.head?.all isUpperAscii = true →
        db_name n1 = db_name n2 → n1 = n2) := by
  refine ⟨fun _ => rfl, by decide, by decide, by decide, ?_⟩
  intro n1 n2 hu1 hu2 hh1 hh2 he
  obtain ⟨d1⟩ := n1
  obtain ⟨d2⟩ := n2
  cases d1 with
  | nil =>
    cases d2 with
    | nil => rfl
    | cons c2 cs2 =>
      rw [show db_name (String.mk (c2 :: cs2))
        = String.mk (lowerChar c2 :: camelToSnakeAux cs2) from rfl] at he
      have hd := congrArg String.data he
      cases hd
  | cons c1 cs1 =>
    cases d2 with
    | nil =>
      rw [show db_name (String.mk (c1 :: cs1))
        = String.mk (lowerChar c1 :: camelToSnakeAux cs1) from rfl] at he
      have hd := congrArg String.data he
      cases hd
    | cons c2 cs2 =>
      rw [show db_name (String.mk (c1 :: cs1))
        = String.mk (lowerChar c1 :: camelToSnakeAux cs1) from rfl,
        show db_name (String.mk (c2 :: cs2))
        = String.mk (lowerChar c2 :: camelToSnakeAux cs2) from rfl] at he
      injection he with he'
      injection he' with hhead htail
      have hup1 : isUpperAscii c1 = true := by
        simpa using hh1
      have hup2 : isUpperAscii c2 = true := by
        simpa using hh2
      have hc : c1 = c2 := lowerChar_inj c1 c2 hup1 hup2 hhead
      have hcs : cs1 = cs2 := camelToSnakeAux_inj cs1 cs2
        (fun c hc' => hu1 c (by simp [hc'])) (fun c hc' => hu2 c (by simp [hc']))
        htail
      rw [hc, hcs]

/-- C7 witness: the injectivity clause applied at the concrete test class
names. -/
theorem db_name_deterministic_injective_witness :
    ("TestTagModel" : String) = "TestTagModel" :=
  db_name_deterministic_injective.2.2.2.2 "TestTagModel" "TestTagModel"
    (by decide) (by decide) (by decide) (by decide) rfl

end NebulaCarina
